import Mathlib

/-!
# Verification of the POET control engine (`src/poet.c`)

A shallow embedding of the POET runtime controller.  The scalar type
`real_t` is a compile-time choice between floating point and fixed point
in the C source; `poet_math.h` is not part of the sources, so following
the spec's description of the numeric kernel (`mul`, `div`, `add`, `sub`,
`to_int` truncation) we model `real_t` as exact rational arithmetic `ℚ`,
with `real_to_int` truncating toward zero.  `poet_constants.h` is also
absent, so the tuning and initialisation constants are kept abstract in a
record `PoetConsts`; `defaultConsts` instantiates them with concrete
representative values for evaluation.

The telemetry logger only copies data into the log ring buffer and prints
it; it does not modify any control state, so it is not modelled.  Heap
allocation and file opening (resource errors) are not modelled either:
`poet_init` fails exactly on its argument-validation check.
-/

namespace Bard

/-- Modelled from the spec: `poet_constants.h` is not under `src/`.  The
spec describes `Q`, `R` (filter noise), `P1`, `P2`, `Z1`, `MU` (controller
tuning), well-defined initial filter constants, and "a small positive
constant" flooring `umin`; they are kept abstract here. -/
structure PoetConsts where
  Q : ℚ
  R : ℚ
  P1 : ℚ
  P2 : ℚ
  Z1 : ℚ
  MU : ℚ
  X_HAT_MINUS_START : ℚ
  X_HAT_START : ℚ
  P_MINUS_START : ℚ
  H_START : ℚ
  K_START : ℚ
  P_START : ℚ
  E_START : ℚ
  EO_START : ℚ
  CURRENT_ACTION_START : ℕ
  U_MIN_SPEEDUP : ℚ
  U_MIN_COST : ℚ
  BIG_REAL_T : ℚ
deriving DecidableEq, Repr

/-- Modelled from the spec: concrete representative values for the
constants of `poet_constants.h` (absent from `src/`), used to evaluate
the embedding on closed inputs. -/
def defaultConsts : PoetConsts where
  Q := 1/10000
  R := 1/100
  P1 := 1/10
  P2 := 1/10
  Z1 := 1/2
  MU := 1
  X_HAT_MINUS_START := 0
  X_HAT_START := 1/5
  P_MINUS_START := 0
  H_START := 0
  K_START := 0
  P_START := 1
  E_START := 0
  EO_START := 0
  CURRENT_ACTION_START := 0
  U_MIN_SPEEDUP := 1/100
  U_MIN_COST := 1/100
  BIG_REAL_T := 1000000000

/-- `poet_tradeoff_type_t` -/
inductive Tradeoff where
  | PERFORMANCE : Tradeoff
  | POWER : Tradeoff
deriving DecidableEq, Repr

/-- `poet_control_state_t` (from `poet.h`, as described by the spec's data
model: `speedup`, `cost`, `idle_partner_id`). -/
structure ControlState where
  speedup : ℚ
  cost : ℚ
  idle_partner_id : ℕ
deriving DecidableEq, Repr

instance : Inhabited ControlState := ⟨⟨0, 0, 0⟩⟩

/-- `filter_state` -/
structure FilterState where
  x_hat_minus : ℚ
  x_hat : ℚ
  p_minus : ℚ
  h : ℚ
  k : ℚ
  p : ℚ
deriving DecidableEq, Repr

/-- `calc_xup_state` -/
structure CalcXupState where
  u : ℚ
  uo : ℚ
  uoo : ℚ
  e : ℚ
  eo : ℚ
  umin : ℚ
  umax : ℚ
deriving DecidableEq, Repr

/-- `struct poet_internal_state`.  The `FILE *` log handle is reduced to a
presence flag and the log buffer to its depth; the opaque `apply_states`
pointer and the callback function pointers are reduced to a presence flag
for `apply` (only its null-ness is branched on). -/
structure PoetState where
  buffer_depth : ℕ
  has_log_file : Bool
  constraint : Tradeoff
  constraint_goal : ℚ
  pfs : FilterState
  cfs : FilterState
  scs : CalcXupState
  pcs : CalcXupState
  current_action : ℕ
  lower_id : ℤ
  upper_id : ℤ
  last_id : ℕ
  low_state_iters : ℤ
  period : ℕ
  idle_ns : ℤ
  cost_estimate : ℚ
  cost_xup_estimate : ℚ
  num_system_states : ℕ
  has_apply : Bool
  control_states : List ControlState
  is_first_apply : Bool
deriving DecidableEq, Repr

/-- One invocation of the `apply` callback with its arguments (minus the
opaque pointer and the state count). -/
structure ApplyEvent where
  config_id : ℕ
  last_id : ℕ
  idle_ns : ℤ
  is_first_apply : Bool
deriving DecidableEq, Repr

/-- The three environment kill switches consulted by `poet_apply_control`
and `translate_n2_with_time` via `getenv`. -/
structure Env where
  disable_control : Bool
  disable_apply : Bool
  disable_idle : Bool
deriving DecidableEq, Repr

/-- Modelled from the spec: `real_to_int` of `poet_math.h` (absent from
`src/`) converts a real to an integer by truncation toward zero. -/
def ratTrunc (q : ℚ) : ℤ := q.num.tdiv q.den

/-- C array indexing `control_states[id]` for an `int` index (in-range in
every reachable use). -/
def getCS (cs : List ControlState) (id : ℤ) : ControlState := cs.getD id.toNat default

/-- `estimate_base_workload`: Kalman-filter update; returns the estimated
base workload `1 / x_hat` together with the updated filter state. -/
def estimate_base_workload (c : PoetConsts) (current_workload last_xup : ℚ)
    (fs : FilterState) : ℚ × FilterState :=
  let x_hat_minus := fs.x_hat
  let p_minus := fs.p + c.Q
  let h := last_xup
  let k := (p_minus * h) / (h * p_minus * h + c.R)
  let x_hat := x_hat_minus + k * (current_workload - h * x_hat_minus)
  let p := (1 - k * h) * p_minus
  (1 / x_hat, ⟨x_hat_minus, x_hat, p_minus, h, k, p⟩)

/-- `calculate_xup`: one step of the second-order controller, producing the
next speedup/powerup clamped to `[umin, umax]` and shifting history. -/
def calculate_xup (c : PoetConsts) (current_rate desired_rate w : ℚ)
    (st : CalcXupState) : CalcXupState :=
  let A := -(-(c.P1 * c.Z1) - c.P2 * c.Z1 + c.MU * c.P1 * c.P2 - c.MU * c.P2 + c.P2
             - c.MU * c.P1 + c.P1 + c.MU)
  let B := -(-(c.MU * c.P1 * c.P2 * c.Z1) + c.P1 * c.P2 * c.Z1 + c.MU * c.P2 * c.Z1
             + c.MU * c.P1 * c.Z1 - c.MU * c.Z1 - c.P1 * c.P2)
  let C := ((c.MU - c.MU * c.P1) * c.P2 + c.MU * c.P1 - c.MU) * w
  let D := ((c.MU * c.P1 - c.MU) * c.P2 - c.MU * c.P1 + c.MU) * w * c.Z1
  let F := 1 / (c.Z1 - 1)
  let e := desired_rate - current_rate
  let u0 := F * (A * st.uo + B * st.uoo + C * e + D * st.eo)
  let u1 := if u0 < st.umin then st.umin else u0
  let u2 := if u1 > st.umax then st.umax else u1
  { st with e := e, u := u2, uoo := st.uo, uo := u2, eo := e }

/-- `calculate_cost_xup`: seed the inactive dimension's controller history
with the planned `cost_xup_estimate`. -/
def calculate_cost_xup (c : PoetConsts) (s : PoetState) : PoetState :=
  match s.constraint with
  | .POWER =>
      { s with scs := { s.scs with
          uoo := s.scs.uo
          u := s.cost_xup_estimate
          uo := s.cost_xup_estimate
          e := c.E_START
          eo := c.EO_START } }
  | .PERFORMANCE =>
      { s with pcs := { s.pcs with
          uoo := s.pcs.uo
          u := s.cost_xup_estimate
          uo := s.cost_xup_estimate
          e := c.E_START
          eo := c.EO_START } }

/-- The body of `calculate_time_division`, factored over the fields it
reads; returns `(low_state_iters, idle_ns, cost_estimate,
cost_xup_estimate)`. -/
def ctdFields (k : Tradeoff) (period : ℕ) (cs : List ControlState)
    (scs_u pcs_u : ℚ) (lower_id upper_id : ℤ) (workload : ℚ) : ℤ × ℤ × ℚ × ℚ :=
  let partner_id := (getCS cs lower_id).idle_partner_id
  let sel :=
    match k with
    | .POWER =>
        ((getCS cs lower_id).cost, (cs.getD partner_id default).cost,
         (getCS cs upper_id).cost, (getCS cs lower_id).speedup,
         (cs.getD partner_id default).speedup, (getCS cs upper_id).speedup, pcs_u)
    | .PERFORMANCE =>
        ((getCS cs lower_id).speedup, (cs.getD partner_id default).speedup,
         (getCS cs upper_id).speedup, (getCS cs lower_id).cost,
         (cs.getD partner_id default).cost, (getCS cs upper_id).cost, scs_u)
  let lower_xup := sel.1
  let partner_xup := sel.2.1
  let upper_xup := sel.2.2.1
  let lower_xup_cost := sel.2.2.2.1
  let partner_xup_cost := sel.2.2.2.2.1
  let upper_xup_cost := sel.2.2.2.2.2.1
  let target_xup := sel.2.2.2.2.2.2
  let r_period : ℚ := (period : ℚ)
  if lower_xup < 1 then
    let hybrid_xup := (target_xup * upper_xup) /
                      (r_period * (upper_xup - target_xup) + target_xup)
    if partner_xup ≤ hybrid_xup then
      (0, 0, (r_period / upper_xup) * upper_xup_cost, upper_xup_cost)
    else
      let xc :=
        if lower_xup ≤ 0 then
          let x := 1 - hybrid_xup / partner_xup
          (x, x * lower_xup_cost + (1 - x) * partner_xup_cost)
        else
          let x := (lower_xup * (hybrid_xup - partner_xup)) /
                   (hybrid_xup * (lower_xup - partner_xup))
          (x, (x / lower_xup) * lower_xup_cost + ((1 - x) / partner_xup) * partner_xup_cost)
      let idle_sec := workload * (1 / hybrid_xup - xc.1 / partner_xup)
      (1, ratTrunc (idle_sec * 1000000000),
       (1 / hybrid_xup) * xc.2 + ((r_period - 1) / upper_xup) * upper_xup_cost,
       (xc.2 + (r_period - 1) * upper_xup_cost) / r_period)
  else
    let r_low_state_iters :=
      if upper_xup ≤ lower_xup ∧ lower_xup ≤ upper_xup then (0 : ℚ)
      else
        let x := (upper_xup * lower_xup - target_xup * lower_xup) /
                 (upper_xup * target_xup - target_xup * lower_xup)
        r_period * x
    let low_state_iters := ratTrunc r_low_state_iters
    let r2 : ℚ := (low_state_iters : ℚ)
    (low_state_iters, 0,
     (r2 / lower_xup) * lower_xup_cost + ((r_period - r2) / upper_xup) * upper_xup_cost,
     (r2 * lower_xup_cost + (r_period - r2) * upper_xup_cost) / r_period)

/-- `calculate_time_division`: stores the planner outputs on the state. -/
def calculate_time_division (s : PoetState) (workload : ℚ) : PoetState :=
  let r := ctdFields s.constraint s.period s.control_states s.scs.u s.pcs.u
             s.lower_id s.upper_id workload
  { s with
    low_state_iters := r.1
    idle_ns := r.2.1
    cost_estimate := r.2.2.1
    cost_xup_estimate := r.2.2.2 }

/-- `get_control_xup` -/
def get_control_xup (s : PoetState) (id : ℕ) : ℚ :=
  match s.constraint with
  | .POWER => (s.control_states.getD id default).cost
  | .PERFORMANCE => (s.control_states.getD id default).speedup

/-- Record of the running best pair inside `translate_n2_with_time`. -/
structure BestRec where
  best_cost : ℚ
  best_cost_xup : ℚ
  best_lower_id : ℤ
  best_upper_id : ℤ
  best_low_state_iters : ℤ
  best_idle_ns : ℤ
deriving DecidableEq, Repr

/-- The inner (`j`) loop body of `translate_n2_with_time`. -/
def innerBody (env : Env) (workload target : ℚ) (i : ℕ)
    (acc : PoetState × BestRec) (j : ℕ) : PoetState × BestRec :=
  let s := acc.1
  let b := acc.2
  let lower_xup := get_control_xup s j
  if lower_xup > target ∨ (lower_xup < 1 ∧ env.disable_idle = true) then acc
  else
    let s := { s with lower_id := (j : ℤ) }
    let s := calculate_time_division s workload
    let is_best : Bool :=
      match s.constraint with
      | .POWER => decide (s.cost_estimate > b.best_cost)
      | .PERFORMANCE => decide (s.cost_estimate < b.best_cost)
    let b := if is_best then
        { best_cost := s.cost_estimate
          best_cost_xup := s.cost_xup_estimate
          best_lower_id := (j : ℤ)
          best_upper_id := (i : ℤ)
          best_low_state_iters := s.low_state_iters
          best_idle_ns := s.idle_ns }
      else b
    ({ s with idle_ns := 0 }, b)

/-- The outer (`i`) loop body of `translate_n2_with_time`. -/
def outerBody (env : Env) (workload target : ℚ)
    (acc : PoetState × BestRec) (i : ℕ) : PoetState × BestRec :=
  let upper_xup := get_control_xup acc.1 i
  if upper_xup < target ∨ upper_xup < 1 then acc
  else
    let s := { acc.1 with upper_id := (i : ℤ) }
    (List.range acc.1.num_system_states).foldl (innerBody env workload target i) (s, acc.2)

/-- The target xup the pair search and planner aim for: the active
controller's current `u` (`pcs.u` under POWER, `scs.u` under
PERFORMANCE), as read by the `switch` statements of
`translate_n2_with_time` and `calculate_time_division`. -/
def targetOf (s : PoetState) : ℚ :=
  match s.constraint with
  | .POWER => s.pcs.u
  | .PERFORMANCE => s.scs.u

/-- The initial best record of `translate_n2_with_time`: a large positive
sentinel cost under PERFORMANCE, zero under POWER, and `-1` sentinels for
the schedule (`best_idle_ns` starts at 0). -/
def searchSeed (k : Tradeoff) (c : PoetConsts) : BestRec :=
  ⟨(match k with | .POWER => (0 : ℚ) | .PERFORMANCE => c.BIG_REAL_T), -1, -1, -1, -1, 0⟩

/-- `translate_n2_with_time`: O(n²) pair search storing the best schedule. -/
def translate_n2_with_time (env : Env) (c : PoetConsts) (s : PoetState)
    (workload : ℚ) : PoetState :=
  let target := targetOf s
  let b0 : BestRec := searchSeed s.constraint c
  let r := (List.range s.num_system_states).foldl (outerBody env workload target) (s, b0)
  { r.1 with
    lower_id := r.2.best_lower_id
    upper_id := r.2.best_upper_id
    low_state_iters := r.2.best_low_state_iters
    idle_ns := r.2.best_idle_ns
    cost_estimate := r.2.best_cost
    cost_xup_estimate := r.2.best_cost_xup }

/-- The estimator and controller portion of the period-boundary branch of
`poet_apply_control`; returns the updated state and the workload handed to
the translator. -/
def estimateAndControl (c : PoetConsts) (s : PoetState) (perf pwr : ℚ) :
    PoetState × ℚ :=
  let r1 := estimate_base_workload c perf s.scs.u s.pfs
  let r2 := estimate_base_workload c pwr s.pcs.u s.cfs
  let s1 := { s with pfs := r1.2, cfs := r2.2 }
  match s1.constraint with
  | .POWER =>
      ({ s1 with pcs := calculate_xup c pwr s1.constraint_goal r2.1 s1.pcs }, r2.1)
  | .PERFORMANCE =>
      ({ s1 with scs := calculate_xup c perf s1.constraint_goal r1.1 s1.scs }, r1.1)

/-- The period-boundary branch of `poet_apply_control` (the logger, which
only copies state into the log buffer, is not modelled). -/
def boundaryStep (env : Env) (c : PoetConsts) (s : PoetState) (perf pwr : ℚ) :
    PoetState :=
  let r := estimateAndControl c s perf pwr
  calculate_cost_xup c (translate_n2_with_time env c r.1 r.2)

/-- The dispatch portion of `poet_apply_control`: choose a configuration
and possibly invoke the apply callback. -/
def dispatchStep (env : Env) (s : PoetState) : PoetState × Option ApplyEvent :=
  let r :=
    if s.low_state_iters > 0 then
      (s.lower_id, { s with low_state_iters := s.low_state_iters - 1 })
    else if s.upper_id ≥ 0 then (s.upper_id, s)
    else ((-1 : ℤ), s)
  let config_id := r.1
  let s1 := r.2
  if 0 ≤ config_id ∧ (config_id.toNat ≠ s1.last_id ∨ s1.is_first_apply = true) then
    if s1.has_apply = true ∧ env.disable_apply = false then
      ({ s1 with
          is_first_apply := false
          last_id := config_id.toNat
          idle_ns := 0 },
       some ⟨config_id.toNat, s1.last_id, s1.idle_ns, s1.is_first_apply⟩)
    else ({ s1 with last_id := config_id.toNat, idle_ns := 0 }, none)
  else (s1, none)

/-- `poet_apply_control`: run the full pipeline at a period boundary, then
dispatch, then advance the period counter.  The returned option is the
apply-callback invocation, if any. -/
def poet_apply_control (env : Env) (c : PoetConsts) (s : PoetState)
    (_id : ℕ) (perf pwr : ℚ) : PoetState × Option ApplyEvent :=
  if env.disable_control = true then (s, none)
  else
    let s1 := if s.current_action = 0 then boundaryStep env c s perf pwr else s
    let r := dispatchStep env s1
    ({ r.1 with current_action := (r.1.current_action + 1) % r.1.period }, r.2)

/-- Arguments of `poet_init`.  A `none` for `control_states` models a NULL
pointer; `current_probe = some i` models a present `current` callback that
succeeds and reports state `i` (absent or failing otherwise); the opaque
`apply_states` pointer is not modelled. -/
structure InitArgs where
  goal : ℚ
  constraint : Tradeoff
  num_system_states : ℕ
  control_states : Option (List ControlState)
  has_apply : Bool
  current_probe : Option ℕ
  period : ℕ
  buffer_depth : ℕ
  has_log_filename : Bool
deriving DecidableEq, Repr

/-- One iteration of the umin/umax derivation loop of `poet_init`
(operating on the running `(scs.umin, scs.umax, pcs.umin, pcs.umax)`). -/
def uminmaxStep (c : PoetConsts) (cs : List ControlState)
    (m : ℚ × ℚ × ℚ × ℚ) (i : ℕ) : ℚ × ℚ × ℚ × ℚ :=
  let speedup := (cs.getD i default).speedup
  let cost := (cs.getD i default).cost
  let m1 := if speedup < m.1 then
      (if speedup < c.U_MIN_SPEEDUP then c.U_MIN_SPEEDUP else speedup) else m.1
  let m2 := if speedup ≥ m.2.1 then speedup else m.2.1
  let m3 := if cost ≤ m.2.2.1 then
      (if cost < c.U_MIN_COST then c.U_MIN_COST else cost) else m.2.2.1
  let m4 := if cost ≥ m.2.2.2 then cost else m.2.2.2
  (m1, m2, m3, m4)

/-- `poet_init`.  Returns `none` exactly on the EINVAL argument check
(allocation and file-open failures — the spec's "resource errors" — are
not modelled). -/
def poet_init (c : PoetConsts) (a : InitArgs) : Option PoetState :=
  if a.goal ≤ 0 ∨ a.num_system_states = 0 ∨ a.control_states = none ∨ a.period = 0 ∨
     (a.buffer_depth = 0 ∧ a.has_log_filename = true) then
    none
  else
    let cs := a.control_states.getD []
    let last_id := match a.current_probe with
      | some i => i
      | none => a.num_system_states - 1
    let u0 := (cs.getD last_id default).speedup
    let pu0 := (cs.getD last_id default).cost
    let mm := (List.range a.num_system_states).foldl (uminmaxStep c cs) (1, 1, 1, 1)
    some
      { buffer_depth := a.buffer_depth
        has_log_file := a.has_log_filename
        constraint := a.constraint
        constraint_goal := a.goal
        pfs := ⟨c.X_HAT_MINUS_START, c.X_HAT_START, c.P_MINUS_START,
                c.H_START, c.K_START, c.P_START⟩
        cfs := ⟨c.X_HAT_MINUS_START, c.X_HAT_START, c.P_MINUS_START,
                c.H_START, c.K_START, c.P_START⟩
        scs := ⟨u0, u0, u0, c.E_START, c.EO_START, mm.1, mm.2.1⟩
        pcs := ⟨pu0, pu0, pu0, c.E_START, c.EO_START, mm.2.2.1, mm.2.2.2⟩
        current_action := c.CURRENT_ACTION_START
        lower_id := -1
        upper_id := -1
        last_id := last_id
        low_state_iters := 0
        period := a.period
        idle_ns := 0
        cost_estimate := 0
        cost_xup_estimate := 0
        num_system_states := a.num_system_states
        has_apply := a.has_apply
        control_states := cs
        is_first_apply := true }

/-- `poet_set_constraint_type`; a `none` state models a NULL pointer. -/
def poet_set_constraint_type (st : Option PoetState) (constraint : Tradeoff)
    (goal : ℚ) : Option PoetState :=
  match st with
  | none => none
  | some s =>
      if goal > 0 then some { s with constraint := constraint, constraint_goal := goal }
      else some s

/-!
## Specification-side definitions

These are written from the spec's words (not from the code) and are
compared with the source embedding in refinement theorems.
-/

/-- The constructor preconditions exactly as the spec (§6) lists them:
`goal > 0`, `num_states > 0`, `control_states != null`, `period > 0`,
`(buffer_depth == 0) or (log_filename != null)`. -/
def spec_preconditions (a : InitArgs) : Prop :=
  0 < a.goal ∧ 0 < a.num_system_states ∧ a.control_states ≠ none ∧ 0 < a.period ∧
    (a.buffer_depth = 0 ∨ a.has_log_filename = true)

instance (a : InitArgs) : Decidable (spec_preconditions a) := by
  unfold spec_preconditions; infer_instance

/-- The Kalman recurrence exactly as written in the spec (§4.1), for
observed rate `y` and last applied multiplier `u_prev`; returns the
workload `1 / x_hat` and the new filter state. -/
def kalman_spec_step (c : PoetConsts) (y u_prev : ℚ) (fs : FilterState) :
    ℚ × FilterState :=
  let x_hat_minus := fs.x_hat
  let p_minus := fs.p + c.Q
  let h := u_prev
  let k := (p_minus * h) / (h * p_minus * h + c.R)
  let x_hat := x_hat_minus + k * (y - h * x_hat_minus)
  let p := (1 - k * h) * p_minus
  (1 / x_hat, ⟨x_hat_minus, x_hat, p_minus, h, k, p⟩)

/-- Clamping to an interval, the usual reading of the spec's
"clamp `u` to `[umin, umax]`". -/
def clampSpec (lo hi x : ℚ) : ℚ := max lo (min hi x)

/-- The controller step exactly as written in the spec (§4.2):
`e = desired − current`, the fixed `A B C D F` expressions, the clamped
`u`, and the history shift `uoo ← uo, uo ← u, eo ← e`. -/
def xup_spec_step (c : PoetConsts) (current desired w : ℚ)
    (st : CalcXupState) : CalcXupState :=
  let e := desired - current
  let A := -(-(c.P1 * c.Z1) - c.P2 * c.Z1 + c.MU * c.P1 * c.P2 - c.MU * c.P2 + c.P2
             - c.MU * c.P1 + c.P1 + c.MU)
  let B := -(-(c.MU * c.P1 * c.P2 * c.Z1) + c.P1 * c.P2 * c.Z1 + c.MU * c.P2 * c.Z1
             + c.MU * c.P1 * c.Z1 - c.MU * c.Z1 - c.P1 * c.P2)
  let C := ((c.MU - c.MU * c.P1) * c.P2 + c.MU * c.P1 - c.MU) * w
  let D := ((c.MU * c.P1 - c.MU) * c.P2 - c.MU * c.P1 + c.MU) * w * c.Z1
  let F := 1 / (c.Z1 - 1)
  let u := clampSpec st.umin st.umax (F * (A * st.uo + B * st.uoo + C * e + D * st.eo))
  { st with e := e, u := u, uoo := st.uo, uo := u, eo := e }

/-- The xup of a state id in the active dimension: `speedup` under a
PERFORMANCE constraint, `cost` under a POWER constraint. -/
def specXup (k : Tradeoff) (cs : List ControlState) (i : ℕ) : ℚ :=
  match k with
  | .POWER => (cs.getD i default).cost
  | .PERFORMANCE => (cs.getD i default).speedup

/-- Upper-candidate admissibility from the spec (§4.4):
`upper_xup ≥ target_xup` and `upper_xup ≥ 1`. -/
def upperAdmissible (k : Tradeoff) (cs : List ControlState) (t : ℚ) (i : ℕ) : Bool :=
  decide (t ≤ specXup k cs i) && decide (1 ≤ specXup k cs i)

/-- Lower-candidate admissibility from the spec (§4.4):
`lower_xup ≤ target_xup`, and additionally `lower_xup ≥ 1` when idling is
disabled. -/
def lowerAdmissible (k : Tradeoff) (cs : List ControlState) (t : ℚ) (dis : Bool)
    (j : ℕ) : Bool :=
  decide (specXup k cs j ≤ t) && (decide (1 ≤ specXup k cs j) || !dis)

/-- All admissible `(upper, lower)` pairs, in the enumeration order of the
pair search (upper-major). -/
def admissiblePairs (k : Tradeoff) (cs : List ControlState) (n : ℕ) (t : ℚ)
    (dis : Bool) : List (ℕ × ℕ) :=
  ((List.range n).filter (upperAdmissible k cs t)).flatMap
    (fun i => ((List.range n).filter (lowerAdmissible k cs t dis)).map (fun j => (i, j)))

/-- Retain the better of the running best and the pair `(upper, lower)`:
strictly smaller planner cost under PERFORMANCE, strictly larger under
POWER (so ties keep the first-found pair). -/
def bestUpdate (k : Tradeoff) (period : ℕ) (cs : List ControlState)
    (scs_u pcs_u w : ℚ) (b : BestRec) (pr : ℕ × ℕ) : BestRec :=
  let f := ctdFields k period cs scs_u pcs_u (pr.2 : ℤ) (pr.1 : ℤ) w
  let is_best : Bool :=
    match k with
    | .POWER => decide (f.2.2.1 > b.best_cost)
    | .PERFORMANCE => decide (f.2.2.1 < b.best_cost)
  if is_best then ⟨f.2.2.1, f.2.2.2, (pr.2 : ℤ), (pr.1 : ℤ), f.1, f.2.1⟩ else b

/-- The pair search as the spec describes it: fold the strict-improvement
update over the admissible pairs for target `t` in enumeration order,
starting from the seed. -/
def specSearch (k : Tradeoff) (cs : List ControlState) (n period : ℕ)
    (scs_u pcs_u t w : ℚ) (dis : Bool) (c : PoetConsts) : BestRec :=
  (admissiblePairs k cs n t dis).foldl
    (bestUpdate k period cs scs_u pcs_u w) (searchSeed k c)

/-- Writing a best record's schedule onto a state, as the tail of
`translate_n2_with_time` does. -/
def applyBest (s : PoetState) (b : BestRec) : PoetState :=
  { s with
    lower_id := b.best_lower_id
    upper_id := b.best_upper_id
    low_state_iters := b.best_low_state_iters
    idle_ns := b.best_idle_ns
    cost_estimate := b.best_cost
    cost_xup_estimate := b.best_cost_xup }

/-- The maximum `speedup` across a configuration table (the spec's words
for the derivation of `umax`; speedups are nonnegative per §3). -/
def maxSpeedup (cs : List ControlState) : ℚ := (cs.map (fun e => e.speedup)).foldl max 0

/-- The active constraint's controller state: `scs` under PERFORMANCE,
`pcs` under POWER. -/
def activeCXS (s : PoetState) : CalcXupState :=
  match s.constraint with
  | .POWER => s.pcs
  | .PERFORMANCE => s.scs

/-- Two states agree on every field except the six schedule/planning
fields (`lower_id`, `upper_id`, `low_state_iters`, `idle_ns`,
`cost_estimate`, `cost_xup_estimate`) — the only fields
`translate_n2_with_time` writes. -/
def sameCore (s₀ s : PoetState) : Prop :=
  s.buffer_depth = s₀.buffer_depth ∧ s.has_log_file = s₀.has_log_file ∧
  s.constraint = s₀.constraint ∧ s.constraint_goal = s₀.constraint_goal ∧
  s.pfs = s₀.pfs ∧ s.cfs = s₀.cfs ∧ s.scs = s₀.scs ∧ s.pcs = s₀.pcs ∧
  s.current_action = s₀.current_action ∧ s.last_id = s₀.last_id ∧
  s.period = s₀.period ∧ s.num_system_states = s₀.num_system_states ∧
  s.has_apply = s₀.has_apply ∧ s.control_states = s₀.control_states ∧
  s.is_first_apply = s₀.is_first_apply

/-!
## Concrete fixtures

Closed engine states and argument tuples used to evaluate the embedding
in witnesses and counterexamples.
-/

/-- A configuration table with a single state of speedup 1/2: no state has
`xup ≥ 1`, so the pair search finds no admissible pair. -/
def engineNoPair : PoetState :=
  { buffer_depth := 0
    has_log_file := false
    constraint := .PERFORMANCE
    constraint_goal := 1
    pfs := ⟨0, 1/5, 0, 0, 0, 1⟩
    cfs := ⟨0, 1/5, 0, 0, 0, 1⟩
    scs := ⟨1/2, 1/2, 1/2, 0, 0, 1/2, 1⟩
    pcs := ⟨1, 1, 1, 0, 0, 1, 1⟩
    current_action := 0
    lower_id := 0
    upper_id := 0
    last_id := 0
    low_state_iters := 2
    period := 4
    idle_ns := 0
    cost_estimate := 0
    cost_xup_estimate := 0
    num_system_states := 1
    has_apply := true
    control_states := [⟨1/2, 1, 0⟩]
    is_first_apply := true }

/-- A POWER-constraint engine whose state 0 has cost 1 but speedup 1/2:
with idling disabled the pair search may still select it as the lower
state, because admissibility is checked on `cost` under POWER. -/
def enginePower : PoetState :=
  { buffer_depth := 0
    has_log_file := false
    constraint := .POWER
    constraint_goal := 1
    pfs := ⟨0, 1/5, 0, 0, 0, 1⟩
    cfs := ⟨0, 1/5, 0, 0, 0, 1⟩
    scs := ⟨1, 1, 1, 0, 0, 1, 2⟩
    pcs := ⟨2, 2, 2, 0, 0, 1, 2⟩
    current_action := 0
    lower_id := -1
    upper_id := -1
    last_id := 0
    low_state_iters := 0
    period := 4
    idle_ns := 0
    cost_estimate := 0
    cost_xup_estimate := 0
    num_system_states := 2
    has_apply := true
    control_states := [⟨1/2, 1, 1⟩, ⟨2, 2, 1⟩]
    is_first_apply := true }

/-- A small healthy two-state engine used for witnesses. -/
def engineTwo : PoetState :=
  { buffer_depth := 0
    has_log_file := false
    constraint := .PERFORMANCE
    constraint_goal := 3/2
    pfs := ⟨0, 1/5, 0, 0, 0, 1⟩
    cfs := ⟨0, 1/5, 0, 0, 0, 1⟩
    scs := ⟨2, 2, 2, 0, 0, 1, 2⟩
    pcs := ⟨2, 2, 2, 0, 0, 1, 2⟩
    current_action := 0
    lower_id := -1
    upper_id := -1
    last_id := 1
    low_state_iters := 0
    period := 10
    idle_ns := 0
    cost_estimate := 0
    cost_xup_estimate := 0
    num_system_states := 2
    has_apply := true
    control_states := [⟨1, 1, 0⟩, ⟨2, 2, 0⟩]
    is_first_apply := true }

/-- Valid arguments with `buffer_depth = 1` and no log file: the spec's
precondition `(buffer_depth == 0) or (log_filename != null)` does not
hold, yet the source accepts them. -/
def argsBufNoLog : InitArgs :=
  { goal := 1
    constraint := .PERFORMANCE
    num_system_states := 1
    control_states := some [⟨1, 1, 0⟩]
    has_apply := true
    current_probe := none
    period := 1
    buffer_depth := 1
    has_log_filename := false }

/-- Arguments with a single state of speedup 1/2 (and cost 3). -/
def argsHalf : InitArgs :=
  { goal := 1
    constraint := .PERFORMANCE
    num_system_states := 1
    control_states := some [⟨1/2, 3, 0⟩]
    has_apply := true
    current_probe := none
    period := 1
    buffer_depth := 0
    has_log_filename := false }

/-- The all-enabled environment. -/
def envOn : Env := ⟨false, false, false⟩

/-- Environment with only `POET_DISABLE_IDLE` set. -/
def envIdleOff : Env := ⟨false, false, true⟩

/-- `engineNoPair` part-way through a period, with a drained schedule and
a negative `upper_id`. -/
def engineMidPeriod : PoetState :=
  { engineNoPair with current_action := 1, low_state_iters := 0, upper_id := -1 }

/-- The engine `poet_init` builds from `argsHalf`. -/
def engineHalf : PoetState := (poet_init defaultConsts argsHalf).getD engineTwo

/-!
## Theorems
-/

/-- Claim C1 (corrected): `poet_init` returns a null result with
`errno = EINVAL` exactly when `goal <= 0`, `num_states == 0`,
`control_states` is null, `period == 0`, or `buffer_depth == 0` while
`log_filename` is non-null (file logging without a buffer).  The last
condition is the reverse of the spec's stated precondition
`(buffer_depth == 0) or (log_filename != null)`. -/
theorem poet_init_none_iff_einval (c : PoetConsts) (a : InitArgs) :
    poet_init c a = none ↔
      (a.goal ≤ 0 ∨ a.num_system_states = 0 ∨ a.control_states = none ∨ a.period = 0 ∨
        (a.buffer_depth = 0 ∧ a.has_log_filename = true)) := by
  by_cases h : (a.goal ≤ 0 ∨ a.num_system_states = 0 ∨ a.control_states = none ∨
      a.period = 0 ∨ (a.buffer_depth = 0 ∧ a.has_log_filename = true)) <;>
    simp [poet_init, h]

/-- Claim C1, counterexample: a tuple that violates the spec's
precondition `(buffer_depth == 0) or (log_filename != null)` — buffered
logging with no file — on which the claim requires a null result, yet
`poet_init` succeeds. -/
theorem poet_init_spec_precondition_cex :
    ¬ spec_preconditions argsBufNoLog ∧ poet_init defaultConsts argsBufNoLog ≠ none := by
  decide

/-- Claim C9 (confirmed): with `POET_DISABLE_CONTROL` set,
`poet_apply_control` returns immediately: the engine state is unchanged
and the apply callback is not invoked. -/
theorem poet_apply_control_disabled_noop (env : Env) (c : PoetConsts) (s : PoetState)
    (id : ℕ) (perf pwr : ℚ) (h : env.disable_control = true) :
    poet_apply_control env c s id perf pwr = (s, none) := by
  simp [poet_apply_control, h]

/-- Claim C9, witness. -/
theorem poet_apply_control_disabled_noop_witness :
    poet_apply_control ⟨true, false, false⟩ defaultConsts engineTwo 0 1 1
      = (engineTwo, none) :=
  poet_apply_control_disabled_noop ⟨true, false, false⟩ defaultConsts engineTwo 0 1 1 rfl

/-- Claim C10 (confirmed): `poet_set_constraint_type` leaves a null engine
or an engine given a non-positive goal completely unchanged; with a
positive goal it modifies exactly the constraint kind and the goal. -/
theorem poet_set_constraint_type_frame (s : PoetState) (k : Tradeoff) (g : ℚ) :
    poet_set_constraint_type none k g = none ∧
    (g ≤ 0 → poet_set_constraint_type (some s) k g = some s) ∧
    (0 < g → poet_set_constraint_type (some s) k g =
      some { s with constraint := k, constraint_goal := g }) := by
  refine ⟨rfl, fun h => ?_, fun h => ?_⟩ <;>
    simp [poet_set_constraint_type, not_lt.mpr, h, not_lt_of_le]

/-- Claim C10, witness. -/
theorem poet_set_constraint_type_frame_witness :
    ((-1 : ℚ) ≤ 0 ∧ poet_set_constraint_type (some engineTwo) .POWER (-1)
        = some engineTwo) ∧
    (0 < (2 : ℚ) ∧ poet_set_constraint_type (some engineTwo) .POWER 2
        = some { engineTwo with constraint := .POWER, constraint_goal := 2 }) :=
  ⟨⟨by norm_num,
      (poet_set_constraint_type_frame engineTwo .POWER (-1)).2.1 (by norm_num)⟩,
   ⟨by norm_num,
      (poet_set_constraint_type_frame engineTwo .POWER 2).2.2 (by norm_num)⟩⟩

/-- The source's two-sided conditional clamp agrees with interval clamping
whenever the interval is nonempty. -/
theorem clamp_if_eq (lo hi x : ℚ) (h : lo ≤ hi) :
    (if (if x < lo then lo else x) > hi then hi else (if x < lo then lo else x))
      = clampSpec lo hi x := by
  unfold clampSpec
  rcases lt_or_le x lo with h1 | h1
  · rw [if_pos h1]
    rw [if_neg (not_lt.mpr h)]
    rw [max_eq_left ((min_le_right hi x).trans h1.le)]
  · rw [if_neg (not_lt.mpr h1)]
    rcases lt_or_le hi x with h2 | h2
    · rw [if_pos h2, min_eq_left h2.le, max_eq_right h]
    · rw [if_neg (not_lt.mpr h2), min_eq_right h2, max_eq_right h1]

/-- Claim C7 (confirmed): one controller step computes `e = desired −
current`, `u = F·(A·uo + B·uoo + C·e + D·eo)` with the spec's fixed
`A B C D F` expressions, clamps `u` to `[umin, umax]`, and shifts history
`uoo ← uo`, `uo ← u`, `eo ← e` — i.e. `calculate_xup` coincides with the
spec's controller step (on states whose clamp interval is nonempty). -/
theorem calculate_xup_matches_spec (c : PoetConsts) (cur des w : ℚ)
    (st : CalcXupState) (h : st.umin ≤ st.umax) :
    calculate_xup c cur des w st = xup_spec_step c cur des w st := by
  simp only [calculate_xup, xup_spec_step]
  rw [clamp_if_eq _ _ _ h]

/-- Claim C7, witness. -/
theorem calculate_xup_matches_spec_witness :
    engineTwo.scs.umin ≤ engineTwo.scs.umax ∧
      calculate_xup defaultConsts 1 (3/2) 5 engineTwo.scs
        = xup_spec_step defaultConsts 1 (3/2) 5 engineTwo.scs :=
  ⟨by decide, calculate_xup_matches_spec defaultConsts 1 (3/2) 5 engineTwo.scs (by decide)⟩

theorem sameCore_refl (s : PoetState) : sameCore s s := by
  simp [sameCore]

theorem get_control_xup_eq (s₀ s : PoetState) (h : sameCore s₀ s) (j : ℕ) :
    get_control_xup s j = specXup s₀.constraint s₀.control_states j := by
  obtain ⟨-, -, hk, -, -, -, -, -, -, -, -, -, -, hcs, -⟩ := h
  unfold get_control_xup specXup
  rw [hk, hcs]

theorem innerBody_core (env : Env) (w t : ℚ) (i j : ℕ) (acc : PoetState × BestRec)
    (s₀ : PoetState) (h : sameCore s₀ acc.1) (hu : acc.1.upper_id = (i : ℤ)) :
    sameCore s₀ (innerBody env w t i acc j).1 ∧
      (innerBody env w t i acc j).1.upper_id = (i : ℤ) := by
  unfold innerBody
  by_cases hc : get_control_xup acc.1 j > t ∨
      (get_control_xup acc.1 j < 1 ∧ env.disable_idle = true)
  · simp only [if_pos hc]
    exact ⟨h, hu⟩
  · simp only [if_neg hc]
    refine ⟨?_, ?_⟩
    · simp only [calculate_time_division, sameCore] at h ⊢
      simpa using h
    · simpa [calculate_time_division] using hu

theorem innerBody_best (env : Env) (w t : ℚ) (i j : ℕ) (acc : PoetState × BestRec)
    (s₀ : PoetState) (h : sameCore s₀ acc.1) (hu : acc.1.upper_id = (i : ℤ)) :
    (innerBody env w t i acc j).2 =
      if lowerAdmissible s₀.constraint s₀.control_states t env.disable_idle j = true
      then bestUpdate s₀.constraint s₀.period s₀.control_states s₀.scs.u s₀.pcs.u w
             acc.2 (i, j)
      else acc.2 := by
  obtain ⟨h1, h2, hk, h4, h5, h6, hscs, hpcs, h9, h10, hper, hnum, h13, hcs, h15⟩ := h
  have hx : get_control_xup acc.1 j = specXup s₀.constraint s₀.control_states j := by
    unfold get_control_xup specXup; rw [hk, hcs]
  unfold innerBody
  by_cases hc : get_control_xup acc.1 j > t ∨
      (get_control_xup acc.1 j < 1 ∧ env.disable_idle = true)
  · simp only [if_pos hc]
    have hadm : lowerAdmissible s₀.constraint s₀.control_states t env.disable_idle j
        = false := by
      rw [hx] at hc
      rcases hc with hgt | ⟨hlt, hdis⟩
      · simp [lowerAdmissible, not_le.mpr hgt]
      · simp [lowerAdmissible, hdis, not_le.mpr hlt]
    rw [hadm]
    simp
  · simp only [if_neg hc]
    have hadm : lowerAdmissible s₀.constraint s₀.control_states t env.disable_idle j
        = true := by
      rw [hx] at hc
      push_neg at hc
      obtain ⟨hle, himp⟩ := hc
      rcases le_or_lt 1 (specXup s₀.constraint s₀.control_states j) with hge | hlt
      · simp [lowerAdmissible, hle, hge]
      · have hdis : env.disable_idle = false := by simpa using himp hlt
        simp [lowerAdmissible, hle, hdis]
    rw [hadm]
    simp only [if_pos rfl]
    unfold bestUpdate
    simp only [calculate_time_division]
    simp only [hk, hcs, hper, hscs, hpcs, hu]
    rfl

theorem inner_foldl (env : Env) (w t : ℚ) (i : ℕ) (s₀ : PoetState) (js : List ℕ) :
    ∀ acc : PoetState × BestRec, sameCore s₀ acc.1 → acc.1.upper_id = (i : ℤ) →
      sameCore s₀ ((js.foldl (innerBody env w t i) acc).1) ∧
      ((js.foldl (innerBody env w t i) acc).1.upper_id = (i : ℤ)) ∧
      ((js.foldl (innerBody env w t i) acc).2 =
        (js.filter
            (lowerAdmissible s₀.constraint s₀.control_states t env.disable_idle)).foldl
          (fun b j => bestUpdate s₀.constraint s₀.period s₀.control_states s₀.scs.u
            s₀.pcs.u w b (i, j)) acc.2) := by
  induction js with
  | nil => exact fun acc h hu => ⟨h, hu, rfl⟩
  | cons j js ih =>
    intro acc h hu
    have hcore := innerBody_core env w t i j acc s₀ h hu
    have hbest := innerBody_best env w t i j acc s₀ h hu
    have hrec := ih (innerBody env w t i acc j) hcore.1 hcore.2
    refine ⟨hrec.1, hrec.2.1, ?_⟩
    rw [List.foldl_cons, hrec.2.2, List.filter_cons]
    by_cases hadm : lowerAdmissible s₀.constraint s₀.control_states t env.disable_idle j
        = true
    · rw [hbest, if_pos hadm, hadm]
      simp
    · rw [hbest, if_neg hadm]
      simp only [Bool.not_eq_true] at hadm
      rw [hadm]
      simp

theorem outerBody_eq (env : Env) (w t : ℚ) (i : ℕ) (acc : PoetState × BestRec)
    (s₀ : PoetState) (h : sameCore s₀ acc.1) :
    sameCore s₀ (outerBody env w t acc i).1 ∧
      ((outerBody env w t acc i).2 =
        if upperAdmissible s₀.constraint s₀.control_states t i = true
        then ((List.range s₀.num_system_states).filter
                (lowerAdmissible s₀.constraint s₀.control_states t env.disable_idle)).foldl
              (fun b j => bestUpdate s₀.constraint s₀.period s₀.control_states s₀.scs.u
                s₀.pcs.u w b (i, j)) acc.2
        else acc.2) := by
  have hx : get_control_xup acc.1 i = specXup s₀.constraint s₀.control_states i :=
    get_control_xup_eq s₀ acc.1 h i
  unfold outerBody
  by_cases hc : get_control_xup acc.1 i < t ∨ get_control_xup acc.1 i < 1
  · have hadm : upperAdmissible s₀.constraint s₀.control_states t i = false := by
      rw [hx] at hc
      rcases hc with hlt | hlt
      · simp [upperAdmissible, not_le.mpr hlt]
      · simp [upperAdmissible, not_le.mpr hlt]
    simp only [if_pos hc, hadm]
    exact ⟨h, by simp⟩
  · have hadm : upperAdmissible s₀.constraint s₀.control_states t i = true := by
      rw [hx] at hc
      push_neg at hc
      simp [upperAdmissible, hc.1, hc.2]
    have hcore' : sameCore s₀ { acc.1 with upper_id := (i : ℤ) } := by
      simp only [sameCore] at h ⊢
      simpa using h
    obtain ⟨-, -, -, -, -, -, -, -, -, -, -, hnum, -, -, -⟩ := h
    have hfold := inner_foldl env w t i s₀ (List.range acc.1.num_system_states)
      ({ acc.1 with upper_id := (i : ℤ) }, acc.2) hcore' (by simp)
    simp only [if_neg hc]
    refine ⟨hfold.1, ?_⟩
    rw [hfold.2.2, hnum, hadm]
    simp

theorem outer_foldl (env : Env) (w t : ℚ) (s₀ : PoetState) (is : List ℕ) :
    ∀ acc : PoetState × BestRec, sameCore s₀ acc.1 →
      sameCore s₀ ((is.foldl (outerBody env w t) acc).1) ∧
      ((is.foldl (outerBody env w t) acc).2 =
        (is.filter (upperAdmissible s₀.constraint s₀.control_states t)).foldl
          (fun b i => ((List.range s₀.num_system_states).filter
              (lowerAdmissible s₀.constraint s₀.control_states t env.disable_idle)).foldl
            (fun b j => bestUpdate s₀.constraint s₀.period s₀.control_states s₀.scs.u
              s₀.pcs.u w b (i, j)) b) acc.2) := by
  induction is with
  | nil => exact fun acc h => ⟨h, rfl⟩
  | cons i is ih =>
    intro acc h
    have hstep := outerBody_eq env w t i acc s₀ h
    have hrec := ih (outerBody env w t acc i) hstep.1
    refine ⟨hrec.1, ?_⟩
    rw [List.foldl_cons, hrec.2, List.filter_cons]
    by_cases hadm : upperAdmissible s₀.constraint s₀.control_states t i = true
    · rw [hstep.2, if_pos hadm, hadm]
      simp
    · rw [hstep.2, if_neg hadm]
      simp only [Bool.not_eq_true] at hadm
      rw [hadm]
      simp

theorem foldl_pairs (f : BestRec → ℕ × ℕ → BestRec) (is js : List ℕ) (b : BestRec) :
    (is.flatMap (fun i => js.map (fun j => (i, j)))).foldl f b
      = is.foldl (fun b i => js.foldl (fun b j => f b (i, j)) b) b := by
  induction is generalizing b with
  | nil => rfl
  | cons i is ih =>
    simp only [List.flatMap_cons, List.foldl_append, List.foldl_cons, List.foldl_map]
    exact ih _

theorem applyBest_eq_of_sameCore (s₀ s : PoetState) (h : sameCore s₀ s) (b : BestRec) :
    ({ s with
        lower_id := b.best_lower_id
        upper_id := b.best_upper_id
        low_state_iters := b.best_low_state_iters
        idle_ns := b.best_idle_ns
        cost_estimate := b.best_cost
        cost_xup_estimate := b.best_cost_xup } : PoetState) = applyBest s₀ b := by
  obtain ⟨h1, h2, h3, h4, h5, h6, h7, h8, h9, h10, h11, h12, h13, h14, h15⟩ := h
  unfold applyBest
  cases s
  cases s₀
  simp_all

/-- `translate_n2_with_time` equals the spec-side pair search applied to
the state: enumerate the admissible pairs in order, fold the strict
improvement update from the seed, and write the resulting schedule. -/
theorem translate_eq_specSearch (env : Env) (c : PoetConsts) (s : PoetState) (w : ℚ) :
    translate_n2_with_time env c s w =
      applyBest s (specSearch s.constraint s.control_states s.num_system_states
        s.period s.scs.u s.pcs.u (targetOf s) w env.disable_idle c) := by
  simp only [translate_n2_with_time, specSearch, admissiblePairs]
  have hfold := outer_foldl env w (targetOf s) s
    (List.range s.num_system_states) (s, searchSeed s.constraint c)
    (sameCore_refl s)
  rw [foldl_pairs, ← hfold.2]
  exact applyBest_eq_of_sameCore s _ hfold.1 _

theorem foldl_invariant {α β : Type} (P : β → Prop) (f : β → α → β)
    (l : List α) (hstep : ∀ b a, a ∈ l → P b → P (f b a)) (b : β) (hb : P b) :
    P (l.foldl f b) := by
  induction l generalizing b with
  | nil => exact hb
  | cons a l ih =>
    exact ih (fun b' a' ha' hb' => hstep b' a' (List.mem_cons_of_mem a ha') hb')
      (f b a) (hstep b a (List.mem_cons_self a l) hb)

theorem mem_admissiblePairs {k : Tradeoff} {cs : List ControlState} {n : ℕ} {t : ℚ}
    {dis : Bool} {pr : ℕ × ℕ} (h : pr ∈ admissiblePairs k cs n t dis) :
    upperAdmissible k cs t pr.1 = true ∧ lowerAdmissible k cs t dis pr.2 = true := by
  unfold admissiblePairs at h
  rw [List.mem_flatMap] at h
  obtain ⟨i, hi, hmem⟩ := h
  rw [List.mem_map] at hmem
  obtain ⟨j, hj, rfl⟩ := hmem
  exact ⟨(List.mem_filter.mp hi).2, (List.mem_filter.mp hj).2⟩

theorem specSearch_lower_admissible (k : Tradeoff) (cs : List ControlState)
    (n period : ℕ) (scs_u pcs_u t w : ℚ) (dis : Bool) (c : PoetConsts) :
    (specSearch k cs n period scs_u pcs_u t w dis c).best_lower_id = -1 ∨
      (∃ j : ℕ, (specSearch k cs n period scs_u pcs_u t w dis c).best_lower_id = (j : ℤ) ∧
        lowerAdmissible k cs t dis j = true) := by
  unfold specSearch
  refine foldl_invariant (fun b : BestRec => b.best_lower_id = -1 ∨
      (∃ j : ℕ, b.best_lower_id = (j : ℤ) ∧
        lowerAdmissible k cs t dis j = true)) _ _ ?_ _ (Or.inl rfl)
  intro b pr hpr hb
  have hlow := (mem_admissiblePairs hpr).2
  cases k <;> (simp only [bestUpdate]; split)
  · exact Or.inr ⟨pr.2, rfl, hlow⟩
  · exact hb
  · exact Or.inr ⟨pr.2, rfl, hlow⟩
  · exact hb

/-- Claim C4 (corrected): the pair search considers exactly the pairs with
`upper_xup ≥ target_xup`, `upper_xup ≥ 1`, `lower_xup ≤ target_xup` (also
`lower_xup ≥ 1` when idling is disabled), minimizing `cost_estimate`
seeded with the large positive sentinel under PERFORMANCE and maximizing
it seeded with zero under POWER, ties kept first-found — and with
`POET_DISABLE_IDLE` set a selected lower always has xup ≥ 1 in the active
dimension (`speedup` under PERFORMANCE, `cost` under POWER; the selected
lower's `speedup` itself may still be < 1 under POWER). -/
theorem translate_pair_search_spec (env : Env) (c : PoetConsts) (s : PoetState)
    (w : ℚ) :
    (translate_n2_with_time env c s w =
      applyBest s (specSearch s.constraint s.control_states s.num_system_states
        s.period s.scs.u s.pcs.u (targetOf s) w env.disable_idle c)) ∧
    (env.disable_idle = true → (translate_n2_with_time env c s w).lower_id ≠ -1 →
      1 ≤ specXup s.constraint s.control_states
            (translate_n2_with_time env c s w).lower_id.toNat) := by
  refine ⟨translate_eq_specSearch env c s w, fun hdis hne => ?_⟩
  rw [translate_eq_specSearch env c s w] at hne ⊢
  rcases specSearch_lower_admissible s.constraint s.control_states s.num_system_states
      s.period s.scs.u s.pcs.u (targetOf s) w env.disable_idle c with h1 | ⟨j, hj, hadm⟩
  · exact absurd (by simpa [applyBest] using h1) hne
  · rw [hdis] at hadm
    simp only [lowerAdmissible, Bool.not_true, Bool.or_false, Bool.and_eq_true,
      decide_eq_true_eq] at hadm
    simpa [applyBest, hj] using hadm.2

/-- Claim C4, witness: a POWER-constraint search with idling disabled
selects lower state 0, whose cost (the active xup) is 1 ≥ 1. -/
theorem translate_pair_search_spec_witness :
    1 ≤ specXup enginePower.constraint enginePower.control_states
        (translate_n2_with_time envIdleOff defaultConsts enginePower 1).lower_id.toNat :=
  (translate_pair_search_spec envIdleOff defaultConsts enginePower 1).2 rfl
    (by with_unfolding_all decide)

/-- Claim C4, counterexample: under a POWER constraint with
`POET_DISABLE_IDLE` set, the search selects lower state 0 even though its
`speedup` is 1/2 < 1 (admissibility is checked on `cost` under POWER), so
"no selected lower_id has speedup < 1" fails. -/
theorem translate_disable_idle_speedup_cex :
    envIdleOff.disable_idle = true ∧
    (translate_n2_with_time envIdleOff defaultConsts enginePower 1).lower_id = 0 ∧
    (getCS enginePower.control_states 0).speedup < 1 := by
  with_unfolding_all decide

theorem specSearch_no_pairs (k : Tradeoff) (cs : List ControlState) (n period : ℕ)
    (scs_u pcs_u t w : ℚ) (dis : Bool) (c : PoetConsts)
    (h : admissiblePairs k cs n t dis = []) :
    specSearch k cs n period scs_u pcs_u t w dis c = searchSeed k c := by
  unfold specSearch
  rw [h]
  rfl

theorem ccx_schedule_fields (c : PoetConsts) (s : PoetState) :
    (calculate_cost_xup c s).lower_id = s.lower_id ∧
    (calculate_cost_xup c s).upper_id = s.upper_id ∧
    (calculate_cost_xup c s).low_state_iters = s.low_state_iters ∧
    (calculate_cost_xup c s).idle_ns = s.idle_ns := by
  unfold calculate_cost_xup
  split <;> simp

theorem dispatchStep_no_config (env : Env) (s : PoetState)
    (h1 : s.low_state_iters ≤ 0) (h2 : s.upper_id < 0) :
    dispatchStep env s = (s, none) := by
  unfold dispatchStep
  rw [if_neg (not_lt.mpr h1), if_neg (not_le.mpr h2)]
  norm_num

/-- Claim C3 (corrected): when no pair qualifies, the stored schedule does
not remain as last computed — `translate_n2_with_time` overwrites it with
sentinels (`lower_id = upper_id = -1`, `low_state_iters = -1`,
`idle_ns = 0`); the boundary call dispatches nothing, and every following
call of the period (negative `low_state_iters`, negative `upper_id`, off
boundary) also leaves the engine unchanged except for the period counter
and invokes no apply callback. -/
theorem no_pair_sentinels_no_dispatch :
    (∀ (env : Env) (c : PoetConsts) (s : PoetState) (id : ℕ) (perf pwr : ℚ),
      env.disable_control = false → s.current_action = 0 →
      admissiblePairs (estimateAndControl c s perf pwr).1.constraint
          (estimateAndControl c s perf pwr).1.control_states
          (estimateAndControl c s perf pwr).1.num_system_states
          (targetOf (estimateAndControl c s perf pwr).1) env.disable_idle = [] →
      (poet_apply_control env c s id perf pwr).2 = none ∧
      (poet_apply_control env c s id perf pwr).1.lower_id = -1 ∧
      (poet_apply_control env c s id perf pwr).1.upper_id = -1 ∧
      (poet_apply_control env c s id perf pwr).1.low_state_iters = -1 ∧
      (poet_apply_control env c s id perf pwr).1.idle_ns = 0) ∧
    (∀ (env : Env) (c : PoetConsts) (s : PoetState) (id : ℕ) (perf pwr : ℚ),
      env.disable_control = false → s.current_action ≠ 0 →
      s.low_state_iters ≤ 0 → s.upper_id < 0 →
      poet_apply_control env c s id perf pwr =
        ({ s with current_action := (s.current_action + 1) % s.period }, none)) := by
  constructor
  · intro env c s id perf pwr hdc hca hadm
    have hb : boundaryStep env c s perf pwr =
        calculate_cost_xup c (applyBest (estimateAndControl c s perf pwr).1
          (searchSeed (estimateAndControl c s perf pwr).1.constraint c)) := by
      simp only [boundaryStep]
      rw [translate_eq_specSearch, specSearch_no_pairs _ _ _ _ _ _ _ _ _ _ hadm]
    have hfields := ccx_schedule_fields c (applyBest (estimateAndControl c s perf pwr).1
      (searchSeed (estimateAndControl c s perf pwr).1.constraint c))
    have hlow : (boundaryStep env c s perf pwr).low_state_iters = -1 := by
      rw [hb, hfields.2.2.1]; simp [applyBest, searchSeed]
    have hup : (boundaryStep env c s perf pwr).upper_id = -1 := by
      rw [hb, hfields.2.1]; simp [applyBest, searchSeed]
    have hlo : (boundaryStep env c s perf pwr).lower_id = -1 := by
      rw [hb, hfields.1]; simp [applyBest, searchSeed]
    have hid : (boundaryStep env c s perf pwr).idle_ns = 0 := by
      rw [hb, hfields.2.2.2]; simp [applyBest, searchSeed]
    have hdisp := dispatchStep_no_config env (boundaryStep env c s perf pwr)
      (by rw [hlow]; norm_num) (by rw [hup]; norm_num)
    unfold poet_apply_control
    simp only [hdc, Bool.false_eq_true, if_false, hca, eq_self_iff_true, if_true, hdisp]
    exact ⟨trivial, hlo, hup, hlow, hid⟩
  · intro env c s id perf pwr hdc hca h1 h2
    have hdisp := dispatchStep_no_config env s h1 h2
    unfold poet_apply_control
    simp only [hdc, Bool.false_eq_true, if_false, if_neg hca, hdisp]

/-- Claim C3, witness: a boundary call on a one-state table whose only
speedup is 1/2 finds no pair, stores the sentinels and dispatches
nothing; a later off-boundary call with the sentinel schedule leaves the
state unchanged except for the period counter. -/
theorem no_pair_sentinels_no_dispatch_witness :
    ((poet_apply_control envOn defaultConsts engineNoPair 0 1 1).2 = none ∧
     (poet_apply_control envOn defaultConsts engineNoPair 0 1 1).1.lower_id = -1 ∧
     (poet_apply_control envOn defaultConsts engineNoPair 0 1 1).1.upper_id = -1 ∧
     (poet_apply_control envOn defaultConsts engineNoPair 0 1 1).1.low_state_iters = -1 ∧
     (poet_apply_control envOn defaultConsts engineNoPair 0 1 1).1.idle_ns = 0) ∧
    poet_apply_control envOn defaultConsts engineMidPeriod 0 1 1 =
      ({ engineMidPeriod with
          current_action := (engineMidPeriod.current_action + 1) % engineMidPeriod.period },
       none) :=
  ⟨no_pair_sentinels_no_dispatch.1 envOn defaultConsts engineNoPair 0 1 1 rfl rfl
      (by with_unfolding_all decide),
   no_pair_sentinels_no_dispatch.2 envOn defaultConsts engineMidPeriod 0 1 1 rfl
      (by decide) (by decide) (by decide)⟩

/-- Claim C3, counterexample: the schedule does not remain as last
computed — `low_state_iters` was 2 before the no-pair boundary call and
is `-1` after it. -/
theorem no_pair_schedule_overwritten_cex :
    engineNoPair.low_state_iters = 2 ∧
    (poet_apply_control envOn defaultConsts engineNoPair 0 1 1).1.low_state_iters = -1 := by
  with_unfolding_all decide

theorem calculate_xup_u_bounds (c : PoetConsts) (cur des w : ℚ)
    (st : CalcXupState) (h : st.umin ≤ st.umax) :
    st.umin ≤ (calculate_xup c cur des w st).u ∧
      (calculate_xup c cur des w st).u ≤ st.umax := by
  simp only [calculate_xup]
  constructor <;> (split_ifs <;> linarith)

theorem dispatchStep_cxs (env : Env) (s : PoetState) :
    (dispatchStep env s).1.scs = s.scs ∧ (dispatchStep env s).1.pcs = s.pcs ∧
      (dispatchStep env s).1.constraint = s.constraint := by
  simp only [dispatchStep]
  repeat' split
  all_goals simp

theorem boundaryStep_perf (env : Env) (c : PoetConsts) (s : PoetState)
    (perf pwr : ℚ) (hk : s.constraint = .PERFORMANCE) :
    (boundaryStep env c s perf pwr).scs =
      calculate_xup c perf s.constraint_goal
        (estimate_base_workload c perf s.scs.u s.pfs).1 s.scs ∧
    (boundaryStep env c s perf pwr).constraint = s.constraint := by
  simp only [boundaryStep, estimateAndControl, hk]
  rw [translate_eq_specSearch]
  simp [calculate_cost_xup, applyBest, hk]

theorem boundaryStep_pow (env : Env) (c : PoetConsts) (s : PoetState)
    (perf pwr : ℚ) (hk : s.constraint = .POWER) :
    (boundaryStep env c s perf pwr).pcs =
      calculate_xup c pwr s.constraint_goal
        (estimate_base_workload c pwr s.pcs.u s.cfs).1 s.pcs ∧
    (boundaryStep env c s perf pwr).constraint = s.constraint := by
  simp only [boundaryStep, estimateAndControl, hk]
  rw [translate_eq_specSearch]
  simp [calculate_cost_xup, applyBest, hk]

theorem pac_boundary_cxs (env : Env) (c : PoetConsts) (s : PoetState) (id : ℕ)
    (perf pwr : ℚ) (hdc : env.disable_control = false) (hca : s.current_action = 0) :
    (poet_apply_control env c s id perf pwr).1.scs = (boundaryStep env c s perf pwr).scs ∧
    (poet_apply_control env c s id perf pwr).1.pcs = (boundaryStep env c s perf pwr).pcs ∧
    (poet_apply_control env c s id perf pwr).1.constraint
      = (boundaryStep env c s perf pwr).constraint := by
  unfold poet_apply_control
  simp only [hdc, Bool.false_eq_true, if_false, hca, eq_self_iff_true, if_true]
  have hd := dispatchStep_cxs env (boundaryStep env c s perf pwr)
  exact ⟨by simp [hd.1], by simp [hd.2.1], by simp [hd.2.2]⟩

/-- Claim C2 (corrected): after a period-boundary call with control
enabled, the ACTIVE constraint's controller output `u` lies in its
`[umin, umax]` range (when that interval is nonempty); off-boundary calls
leave both controllers untouched.  The inactive controller, however, is
reseeded with `cost_xup_estimate` by `calculate_cost_xup` and may lie
outside its range (it is -1 when no pair qualified). -/
theorem apply_control_active_clamped :
    (∀ (env : Env) (c : PoetConsts) (s : PoetState) (id : ℕ) (perf pwr : ℚ),
      env.disable_control = false → s.current_action = 0 →
      (activeCXS s).umin ≤ (activeCXS s).umax →
      (activeCXS (poet_apply_control env c s id perf pwr).1).umin
          ≤ (activeCXS (poet_apply_control env c s id perf pwr).1).u ∧
      (activeCXS (poet_apply_control env c s id perf pwr).1).u
          ≤ (activeCXS (poet_apply_control env c s id perf pwr).1).umax) ∧
    (∀ (env : Env) (c : PoetConsts) (s : PoetState) (id : ℕ) (perf pwr : ℚ),
      env.disable_control = false → s.current_action ≠ 0 →
      (poet_apply_control env c s id perf pwr).1.scs = s.scs ∧
      (poet_apply_control env c s id perf pwr).1.pcs = s.pcs) := by
  constructor
  · intro env c s id perf pwr hdc hca hle
    have hpac := pac_boundary_cxs env c s id perf pwr hdc hca
    cases hk : s.constraint
    · -- PERFORMANCE: the active controller is scs
      have hbs := boundaryStep_perf env c s perf pwr hk
      have hcon : (poet_apply_control env c s id perf pwr).1.constraint
          = Tradeoff.PERFORMANCE := by rw [hpac.2.2, hbs.2, hk]
      have hscs : (poet_apply_control env c s id perf pwr).1.scs =
          calculate_xup c perf s.constraint_goal
            (estimate_base_workload c perf s.scs.u s.pfs).1 s.scs := by
        rw [hpac.1, hbs.1]
      have hact : activeCXS (poet_apply_control env c s id perf pwr).1 =
          calculate_xup c perf s.constraint_goal
            (estimate_base_workload c perf s.scs.u s.pfs).1 s.scs := by
        unfold activeCXS
        rw [hcon, hscs]
      have hle' : s.scs.umin ≤ s.scs.umax := by
        simpa [activeCXS, hk] using hle
      have hb := calculate_xup_u_bounds c perf s.constraint_goal
        (estimate_base_workload c perf s.scs.u s.pfs).1 s.scs hle'
      rw [hact]
      simpa [calculate_xup] using hb
    · -- POWER: the active controller is pcs
      have hbs := boundaryStep_pow env c s perf pwr hk
      have hcon : (poet_apply_control env c s id perf pwr).1.constraint
          = Tradeoff.POWER := by rw [hpac.2.2, hbs.2, hk]
      have hpcs : (poet_apply_control env c s id perf pwr).1.pcs =
          calculate_xup c pwr s.constraint_goal
            (estimate_base_workload c pwr s.pcs.u s.cfs).1 s.pcs := by
        rw [hpac.2.1, hbs.1]
      have hact : activeCXS (poet_apply_control env c s id perf pwr).1 =
          calculate_xup c pwr s.constraint_goal
            (estimate_base_workload c pwr s.pcs.u s.cfs).1 s.pcs := by
        unfold activeCXS
        rw [hcon, hpcs]
      have hle' : s.pcs.umin ≤ s.pcs.umax := by
        simpa [activeCXS, hk] using hle
      have hb := calculate_xup_u_bounds c pwr s.constraint_goal
        (estimate_base_workload c pwr s.pcs.u s.cfs).1 s.pcs hle'
      rw [hact]
      simpa [calculate_xup] using hb
  · intro env c s id perf pwr hdc hca
    unfold poet_apply_control
    simp only [hdc, Bool.false_eq_true, if_false, if_neg hca]
    have hd := dispatchStep_cxs env s
    exact ⟨by simp [hd.1], by simp [hd.2.1]⟩

/-- Claim C2, witness: a healthy boundary call keeps the active (speedup)
controller inside `[1, 2]`; an off-boundary call changes neither
controller. -/
theorem apply_control_active_clamped_witness :
    ((activeCXS (poet_apply_control envOn defaultConsts engineTwo 0 1 1).1).umin
        ≤ (activeCXS (poet_apply_control envOn defaultConsts engineTwo 0 1 1).1).u ∧
      (activeCXS (poet_apply_control envOn defaultConsts engineTwo 0 1 1).1).u
        ≤ (activeCXS (poet_apply_control envOn defaultConsts engineTwo 0 1 1).1).umax) ∧
    ((poet_apply_control envOn defaultConsts engineMidPeriod 0 1 1).1.scs
        = engineMidPeriod.scs ∧
      (poet_apply_control envOn defaultConsts engineMidPeriod 0 1 1).1.pcs
        = engineMidPeriod.pcs) :=
  ⟨apply_control_active_clamped.1 envOn defaultConsts engineTwo 0 1 1 rfl rfl (by decide),
   apply_control_active_clamped.2 envOn defaultConsts engineMidPeriod 0 1 1 rfl (by decide)⟩

/-- Claim C2, counterexample: after a boundary call in which no pair
qualifies, the inactive (powerup) controller's `u` is the sentinel `-1`,
strictly below its `umin = 1` — so "both controllers' u ∈ [umin, umax]"
fails. -/
theorem apply_control_inactive_unclamped_cex :
    ¬ ((poet_apply_control envOn defaultConsts engineNoPair 0 1 1).1.pcs.umin
          ≤ (poet_apply_control envOn defaultConsts engineNoPair 0 1 1).1.pcs.u ∧
        (poet_apply_control envOn defaultConsts engineNoPair 0 1 1).1.pcs.u
          ≤ (poet_apply_control envOn defaultConsts engineNoPair 0 1 1).1.pcs.umax) := by
  with_unfolding_all decide

theorem dispatchStep_filters (env : Env) (s : PoetState) :
    (dispatchStep env s).1.pfs = s.pfs ∧ (dispatchStep env s).1.cfs = s.cfs := by
  simp only [dispatchStep]
  repeat' split
  all_goals simp

theorem boundaryStep_filters (env : Env) (c : PoetConsts) (s : PoetState)
    (perf pwr : ℚ) :
    (boundaryStep env c s perf pwr).pfs
        = (estimate_base_workload c perf s.scs.u s.pfs).2 ∧
      (boundaryStep env c s perf pwr).cfs
        = (estimate_base_workload c pwr s.pcs.u s.cfs).2 := by
  cases hk : s.constraint <;>
    (simp only [boundaryStep, estimateAndControl, hk]
     rw [translate_eq_specSearch]
     simp [calculate_cost_xup, applyBest, hk])

/-- Claim C6 (confirmed): `estimate_base_workload` is exactly the spec's
Kalman recurrence (including returning the workload `1 / x_hat`), and on
every period-boundary call both filters are updated by it — the
performance filter with observed rate `perf` and last multiplier `scs.u`,
the cost filter with observed rate `pwr` and last multiplier `pcs.u`. -/
theorem kalman_filters_follow_spec :
    (∀ (c : PoetConsts) (y u_prev : ℚ) (fs : FilterState),
      estimate_base_workload c y u_prev fs = kalman_spec_step c y u_prev fs) ∧
    (∀ (env : Env) (c : PoetConsts) (s : PoetState) (id : ℕ) (perf pwr : ℚ),
      env.disable_control = false → s.current_action = 0 →
      (poet_apply_control env c s id perf pwr).1.pfs
          = (kalman_spec_step c perf s.scs.u s.pfs).2 ∧
      (poet_apply_control env c s id perf pwr).1.cfs
          = (kalman_spec_step c pwr s.pcs.u s.cfs).2) := by
  constructor
  · intro c y u_prev fs
    rfl
  · intro env c s id perf pwr hdc hca
    unfold poet_apply_control
    simp only [hdc, Bool.false_eq_true, if_false, hca, eq_self_iff_true, if_true]
    have hd := dispatchStep_filters env (boundaryStep env c s perf pwr)
    have hb := boundaryStep_filters env c s perf pwr
    constructor
    · simp [hd.1, hb.1, estimate_base_workload, kalman_spec_step]
    · simp [hd.2, hb.2, estimate_base_workload, kalman_spec_step]

/-- Claim C6, witness. -/
theorem kalman_filters_follow_spec_witness :
    (poet_apply_control envOn defaultConsts engineTwo 0 1 1).1.pfs
        = (kalman_spec_step defaultConsts 1 engineTwo.scs.u engineTwo.pfs).2 ∧
    (poet_apply_control envOn defaultConsts engineTwo 0 1 1).1.cfs
        = (kalman_spec_step defaultConsts 1 engineTwo.pcs.u engineTwo.cfs).2 :=
  kalman_filters_follow_spec.2 envOn defaultConsts engineTwo 0 1 1 rfl rfl

theorem max_min_congr (F a b y : ℚ) (h : max F a = max F b) :
    max F (min a y) = max F (min b y) := by
  rcases le_or_lt F a with ha | ha <;> rcases le_or_lt F b with hb | hb
  · have hab : a = b := by rwa [max_eq_right ha, max_eq_right hb] at h
    rw [hab]
  · have ha' : a = F := by rw [max_eq_right ha, max_eq_left hb.le] at h; exact h
    rw [ha', max_eq_left (min_le_left F y),
      max_eq_left ((min_le_left b y).trans hb.le)]
  · have hb' : b = F := by rw [max_eq_left ha.le, max_eq_right hb] at h; exact h.symm
    rw [hb', max_eq_left (min_le_left F y),
      max_eq_left ((min_le_left a y).trans ha.le)]
  · rw [max_eq_left ((min_le_left a y).trans ha.le),
      max_eq_left ((min_le_left b y).trans hb.le)]

theorem minFold_maxF_congr (F : ℚ) (l : List ℚ) :
    ∀ a b, max F a = max F b → max F (l.foldl min a) = max F (l.foldl min b) := by
  induction l with
  | nil => exact fun a b h => h
  | cons y l ih => exact fun a b h => ih (min a y) (min b y) (max_min_congr F a b y h)

theorem gminFold (F : ℚ) (l : List ℚ) :
    ∀ a, F ≤ a →
      l.foldl (fun a x => if x < a then (if x < F then F else x) else a) a
        = max F (l.foldl min a) := by
  induction l with
  | nil => exact fun a ha => (max_eq_right ha).symm
  | cons x l ih =>
    intro a ha
    simp only [List.foldl_cons]
    by_cases hx : x < a
    · rw [if_pos hx]
      have hstep : (if x < F then F else x) = max F x := by
        split_ifs with h1
        · exact (max_eq_left h1.le).symm
        · exact (max_eq_right (not_lt.mp h1)).symm
      rw [hstep, ih (max F x) (le_max_left F x)]
      refine minFold_maxF_congr F l (max F x) (min a x) ?_
      rw [← max_assoc, max_self, min_eq_right hx.le]
    · rw [if_neg hx, ih a ha, min_eq_left (not_lt.mp hx)]

theorem gminLeFold (F : ℚ) (l : List ℚ) :
    ∀ a, F ≤ a →
      l.foldl (fun a x => if x ≤ a then (if x < F then F else x) else a) a
        = max F (l.foldl min a) := by
  induction l with
  | nil => exact fun a ha => (max_eq_right ha).symm
  | cons x l ih =>
    intro a ha
    simp only [List.foldl_cons]
    by_cases hx : x ≤ a
    · rw [if_pos hx]
      have hstep : (if x < F then F else x) = max F x := by
        split_ifs with h1
        · exact (max_eq_left h1.le).symm
        · exact (max_eq_right (not_lt.mp h1)).symm
      rw [hstep, ih (max F x) (le_max_left F x)]
      refine minFold_maxF_congr F l (max F x) (min a x) ?_
      rw [← max_assoc, max_self, min_eq_right hx]
    · rw [if_neg hx, ih a ha, min_eq_left (le_of_lt (not_le.mp hx))]

theorem gmaxFold (l : List ℚ) :
    ∀ a, l.foldl (fun a x => if x ≥ a then x else a) a = l.foldl max a := by
  induction l with
  | nil => exact fun a => rfl
  | cons x l ih =>
    intro a
    simp only [List.foldl_cons]
    rw [ih]
    congr 1

theorem uminmaxFold_eq (c : PoetConsts) (cs : List ControlState) (l : List ℕ) :
    ∀ q : ℚ × ℚ × ℚ × ℚ,
      l.foldl (uminmaxStep c cs) q =
        ((l.map (fun i => (cs.getD i default).speedup)).foldl
            (fun a x => if x < a then (if x < c.U_MIN_SPEEDUP then c.U_MIN_SPEEDUP else x)
              else a) q.1,
         (l.map (fun i => (cs.getD i default).speedup)).foldl
            (fun a x => if x ≥ a then x else a) q.2.1,
         (l.map (fun i => (cs.getD i default).cost)).foldl
            (fun a x => if x ≤ a then (if x < c.U_MIN_COST then c.U_MIN_COST else x)
              else a) q.2.2.1,
         (l.map (fun i => (cs.getD i default).cost)).foldl
            (fun a x => if x ≥ a then x else a) q.2.2.2) := by
  induction l with
  | nil => exact fun q => rfl
  | cons i l ih =>
    intro q
    simp only [List.foldl_cons, List.map_cons]
    rw [ih]
    rfl

theorem rangeMapGetD {α β : Type} [Inhabited α] (l : List α) (f : α → β) :
    (List.range l.length).map (fun i => f (l.getD i default)) = l.map f := by
  induction l with
  | nil => rfl
  | cons x l ih =>
    rw [List.length_cons, List.range_succ_eq_map, List.map_cons, List.map_map]
    congr 1

/-- Claim C8 (corrected): after `poet_init`, the speedup controller's
range is `umin = max(U_MIN_SPEEDUP, min(1, minimum speedup across all
entries))` and `umax = max(1, maximum speedup)` — the running extrema are
seeded with 1 and the floor applies to the running minimum whether or not
the entry's value is zero; likewise for the powerup controller over the
entries' costs. -/
theorem poet_init_umin_umax (c : PoetConsts) (a : InitArgs) (st : PoetState)
    (cs : List ControlState) (hcs : a.control_states = some cs)
    (hlen : cs.length = a.num_system_states)
    (hsp : c.U_MIN_SPEEDUP ≤ 1) (hco : c.U_MIN_COST ≤ 1)
    (hinit : poet_init c a = some st) :
    st.scs.umin
        = max c.U_MIN_SPEEDUP ((cs.map (fun e => e.speedup)).foldl min 1) ∧
    st.scs.umax = (cs.map (fun e => e.speedup)).foldl max 1 ∧
    st.pcs.umin = max c.U_MIN_COST ((cs.map (fun e => e.cost)).foldl min 1) ∧
    st.pcs.umax = (cs.map (fun e => e.cost)).foldl max 1 := by
  simp only [poet_init] at hinit
  split at hinit
  · exact absurd hinit (by simp)
  · rw [Option.some_inj] at hinit
    subst hinit
    rw [hcs]
    simp only [Option.getD_some]
    rw [← hlen]
    have hmm := uminmaxFold_eq c cs (List.range cs.length) (1, 1, 1, 1)
    rw [rangeMapGetD cs (fun e => e.speedup), rangeMapGetD cs (fun e => e.cost)] at hmm
    rw [gminFold c.U_MIN_SPEEDUP (cs.map (fun e => e.speedup)) 1 hsp,
      gminLeFold c.U_MIN_COST (cs.map (fun e => e.cost)) 1 hco,
      gmaxFold, gmaxFold] at hmm
    rw [hmm]
    exact ⟨rfl, rfl, rfl, rfl⟩

/-- Claim C8, witness: for the single-entry table with speedup 1/2 and
cost 3, init yields `scs.umin = max(1/100, min(1, 1/2)) = 1/2`,
`scs.umax = max(1, 1/2) = 1`, `pcs.umin = max(1/100, min(1, 3)) = 1`,
`pcs.umax = max(1, 3) = 3`. -/
theorem poet_init_umin_umax_witness :
    poet_init defaultConsts argsHalf = some engineHalf ∧
    (engineHalf.scs.umin = max defaultConsts.U_MIN_SPEEDUP
        ((([⟨1/2, 3, 0⟩] : List ControlState).map (fun e => e.speedup)).foldl min 1) ∧
      engineHalf.scs.umax
        = (([⟨1/2, 3, 0⟩] : List ControlState).map (fun e => e.speedup)).foldl max 1 ∧
      engineHalf.pcs.umin = max defaultConsts.U_MIN_COST
        ((([⟨1/2, 3, 0⟩] : List ControlState).map (fun e => e.cost)).foldl min 1) ∧
      engineHalf.pcs.umax
        = (([⟨1/2, 3, 0⟩] : List ControlState).map (fun e => e.cost)).foldl max 1) :=
  ⟨by with_unfolding_all decide,
   poet_init_umin_umax defaultConsts argsHalf engineHalf [⟨1/2, 3, 0⟩] rfl rfl
     (by norm_num [defaultConsts]) (by norm_num [defaultConsts])
     (by with_unfolding_all decide)⟩

/-- Claim C8, counterexample: for the same table the claim says
`scs.umax` equals the maximum speedup, 1/2 — but init leaves the running
maximum at its seed 1. -/
theorem poet_init_umax_cex :
    (poet_init defaultConsts argsHalf).map (fun st => st.scs.umax) = some 1 ∧
    maxSpeedup [⟨1/2, 3, 0⟩] = 1/2 := by
  with_unfolding_all decide

theorem ratTrunc_eq_floor (q : ℚ) (h : 0 ≤ q) : ratTrunc q = ⌊q⌋ := by
  unfold ratTrunc
  rw [Rat.floor_def]
  exact Int.tdiv_eq_ediv (Rat.num_nonneg.mpr h) (Int.natCast_nonneg q.den)

theorem ratTrunc_nonneg (q : ℚ) (h : 0 ≤ q) : 0 ≤ ratTrunc q := by
  rw [ratTrunc_eq_floor q h]
  exact Int.floor_nonneg.mpr h

/-- Bounds on one planner candidate under a PERFORMANCE constraint: for
an admissible pair the iteration count lies in `[0, period]` and a
nonzero idle time arises only from an idle lower state with a single
lower iteration. -/
theorem ctdFields_bounds (period : ℕ) (cs : List ControlState) (t pu w : ℚ)
    (i j : ℕ) (hp : 1 ≤ period)
    (hup1 : 1 ≤ (getCS cs (i : ℤ)).speedup)
    (hupt : t ≤ (getCS cs (i : ℤ)).speedup)
    (hlot : (getCS cs (j : ℤ)).speedup ≤ t) :
    0 ≤ (ctdFields .PERFORMANCE period cs t pu (j : ℤ) (i : ℤ) w).1 ∧
    (ctdFields .PERFORMANCE period cs t pu (j : ℤ) (i : ℤ) w).1 ≤ (period : ℤ) ∧
    ((ctdFields .PERFORMANCE period cs t pu (j : ℤ) (i : ℤ) w).2.1 ≠ 0 →
      (getCS cs (j : ℤ)).speedup < 1 ∧
      (ctdFields .PERFORMANCE period cs t pu (j : ℤ) (i : ℤ) w).1 = 1) := by
  have hpz : (0 : ℤ) ≤ (period : ℤ) := Int.natCast_nonneg period
  have hpz1 : (1 : ℤ) ≤ (period : ℤ) := by exact_mod_cast hp
  simp only [ctdFields]
  split_ifs with h1 h2 h3 h4
  · -- idle lower, hybrid at least partner: (0, 0, _, _)
    exact ⟨le_refl 0, hpz, fun hid => absurd rfl hid⟩
  · -- idle lower, pure-sleep split: (1, idle, _, _)
    exact ⟨by norm_num, hpz1, fun _ => ⟨h1, rfl⟩⟩
  · -- idle lower, partial split: (1, idle, _, _)
    exact ⟨by norm_num, hpz1, fun _ => ⟨h1, rfl⟩⟩
  · -- non-idle, equal rates: (trunc 0, 0, _, _)
    refine ⟨by norm_num [ratTrunc], by norm_num [ratTrunc], fun hid => absurd rfl hid⟩
  · -- non-idle, genuine division
    have hlo1 : (1 : ℚ) ≤ (getCS cs (j : ℤ)).speedup := not_lt.mp h1
    set lo := (getCS cs (j : ℤ)).speedup with hlo_def
    set up := (getCS cs (i : ℤ)).speedup with hup_def
    have hlu : lo < up := by
      rcases lt_or_eq_of_le (hlot.trans hupt) with h | h
      · exact h
      · exact absurd ⟨h.ge, h.le⟩ h4
    have ht1 : (1 : ℚ) ≤ t := hlo1.trans hlot
    have hdenom : 0 < up * t - t * lo := by nlinarith
    have hnum : 0 ≤ up * lo - t * lo := by nlinarith
    have hx0 : 0 ≤ (up * lo - t * lo) / (up * t - t * lo) :=
      div_nonneg hnum hdenom.le
    have hx1 : (up * lo - t * lo) / (up * t - t * lo) ≤ 1 := by
      rw [div_le_one hdenom]
      nlinarith
    have hpx0 : 0 ≤ (period : ℚ) * ((up * lo - t * lo) / (up * t - t * lo)) :=
      mul_nonneg (by positivity) hx0
    have hpxp : (period : ℚ) * ((up * lo - t * lo) / (up * t - t * lo)) ≤ (period : ℚ) := by
      calc (period : ℚ) * ((up * lo - t * lo) / (up * t - t * lo))
          ≤ (period : ℚ) * 1 := by
            exact mul_le_mul_of_nonneg_left hx1 (by positivity)
        _ = (period : ℚ) := mul_one _
    refine ⟨?_, ?_, fun hid => absurd rfl hid⟩
    · rw [ratTrunc_eq_floor _ hpx0]
      exact Int.floor_nonneg.mpr hpx0
    · rw [ratTrunc_eq_floor _ hpx0]
      calc ⌊(period : ℚ) * ((up * lo - t * lo) / (up * t - t * lo))⌋
          ≤ ⌊((period : ℕ) : ℚ)⌋ := Int.floor_le_floor hpxp
        _ = (period : ℤ) := Int.floor_natCast period

/-- Nonnegativity of the planner's idle time under a PERFORMANCE
constraint, for tables whose idle states are pure-sleep states
(`speedup ≤ 0`) with partners of speedup at least 1, a positive target
and a nonnegative workload. -/
theorem ctdFields_idle_nonneg (period : ℕ) (cs : List ControlState) (t pu w : ℚ)
    (i j : ℕ) (ht : 0 < t) (hw : 0 ≤ w)
    (hup1 : 1 ≤ (getCS cs (i : ℤ)).speedup)
    (hupt : t ≤ (getCS cs (i : ℤ)).speedup)
    (hidle : (getCS cs (j : ℤ)).speedup < 1 →
      (getCS cs (j : ℤ)).speedup ≤ 0 ∧
      1 ≤ (cs.getD (getCS cs (j : ℤ)).idle_partner_id default).speedup) :
    0 ≤ (ctdFields .PERFORMANCE period cs t pu (j : ℤ) (i : ℤ) w).2.1 := by
  simp only [ctdFields]
  split_ifs with h1 h2 h3 h4
  · exact le_refl 0
  · -- pure-sleep split: idle_sec = w · (1/h − x/pa) with x = 1 − h/pa
    set pa := (cs.getD (getCS cs (j : ℤ)).idle_partner_id default).speedup with hpa_def
    set up := (getCS cs (i : ℤ)).speedup with hup_def
    have hpa1 : (1 : ℚ) ≤ pa := (hidle h1).2
    have hup0 : (0 : ℚ) < up := lt_of_lt_of_le one_pos hup1
    have hdenom : 0 < (period : ℚ) * (up - t) + t := by
      have h1 : (0 : ℚ) ≤ (period : ℚ) * (up - t) :=
        mul_nonneg (by positivity) (by linarith)
      linarith
    have hh0 : 0 < t * up / ((period : ℚ) * (up - t) + t) :=
      div_pos (mul_pos ht hup0) hdenom
    set h := t * up / ((period : ℚ) * (up - t) + t) with hh_def
    have hhpa : h < pa := not_le.mp h2
    have hpa0 : (0 : ℚ) < pa := lt_trans hh0 hhpa
    have hx1 : 1 - h / pa ≤ 1 := by
      have hdiv : 0 ≤ h / pa := le_of_lt (div_pos hh0 hpa0)
      linarith
    have hkey : 0 ≤ 1 / h - (1 - h / pa) / pa := by
      have e1 : (1 - h / pa) / pa ≤ 1 / pa := (div_le_div_iff_of_pos_right hpa0).mpr hx1
      have e2 : 1 / pa ≤ 1 / h := one_div_le_one_div_of_le hh0 hhpa.le
      linarith
    exact ratTrunc_nonneg _
      (mul_nonneg (mul_nonneg hw hkey) (by norm_num))
  · -- partial split cannot happen: the idle lower state has speedup ≤ 0
    exact absurd (hidle h1).1 h3
  · exact le_refl 0
  · exact le_refl 0

theorem mem_admissiblePairs_lt {k : Tradeoff} {cs : List ControlState} {n : ℕ}
    {t : ℚ} {dis : Bool} {pr : ℕ × ℕ} (h : pr ∈ admissiblePairs k cs n t dis) :
    pr.1 < n ∧ pr.2 < n := by
  unfold admissiblePairs at h
  rw [List.mem_flatMap] at h
  obtain ⟨i, hi, hmem⟩ := h
  rw [List.mem_map] at hmem
  obtain ⟨j, hj, rfl⟩ := hmem
  exact ⟨List.mem_range.mp (List.mem_filter.mp hi).1,
    List.mem_range.mp (List.mem_filter.mp hj).1⟩

theorem specSearch_result_from_pair (k : Tradeoff) (cs : List ControlState)
    (n period : ℕ) (su pu t w : ℚ) (dis : Bool) (c : PoetConsts) :
    specSearch k cs n period su pu t w dis c = searchSeed k c ∨
      ∃ i j : ℕ, (i, j) ∈ admissiblePairs k cs n t dis ∧
        (specSearch k cs n period su pu t w dis c).best_lower_id = (j : ℤ) ∧
        (specSearch k cs n period su pu t w dis c).best_upper_id = (i : ℤ) ∧
        (specSearch k cs n period su pu t w dis c).best_low_state_iters
          = (ctdFields k period cs su pu (j : ℤ) (i : ℤ) w).1 ∧
        (specSearch k cs n period su pu t w dis c).best_idle_ns
          = (ctdFields k period cs su pu (j : ℤ) (i : ℤ) w).2.1 := by
  unfold specSearch
  refine foldl_invariant (fun b : BestRec => b = searchSeed k c ∨
      ∃ i j : ℕ, (i, j) ∈ admissiblePairs k cs n t dis ∧
        b.best_lower_id = (j : ℤ) ∧ b.best_upper_id = (i : ℤ) ∧
        b.best_low_state_iters = (ctdFields k period cs su pu (j : ℤ) (i : ℤ) w).1 ∧
        b.best_idle_ns = (ctdFields k period cs su pu (j : ℤ) (i : ℤ) w).2.1)
    _ _ ?_ _ (Or.inl rfl)
  intro b pr hpr hb
  cases k <;> (simp only [bestUpdate]; split)
  · exact Or.inr ⟨pr.1, pr.2, hpr, rfl, rfl, rfl, rfl⟩
  · exact hb
  · exact Or.inr ⟨pr.1, pr.2, hpr, rfl, rfl, rfl, rfl⟩
  · exact hb

/-- Claim C5 (corrected): under a PERFORMANCE constraint with a positive
period, every planning result in which a pair was selected satisfies
`0 ≤ low_state_iters ≤ period` and `idle_ns ≠ 0 ⇒
control_states[lower_id].speedup < 1 ∧ low_state_iters == 1`; and
`idle_ns ≥ 0` holds additionally whenever the target is positive, the
workload estimate is nonnegative, and every idle entry (`speedup < 1`)
is a pure-sleep state (`speedup ≤ 0`) whose partner has speedup ≥ 1.
(When no pair qualifies the code instead stores `low_state_iters = -1`,
and an idle state with `0 < speedup < 1` can make `idle_ns` negative.) -/
theorem planning_result_bounds :
    (∀ (env : Env) (c : PoetConsts) (s : PoetState) (w : ℚ),
      s.constraint = .PERFORMANCE → 1 ≤ s.period →
      (translate_n2_with_time env c s w).lower_id ≠ -1 →
      0 ≤ (translate_n2_with_time env c s w).low_state_iters ∧
      (translate_n2_with_time env c s w).low_state_iters ≤ (s.period : ℤ) ∧
      ((translate_n2_with_time env c s w).idle_ns ≠ 0 →
        (getCS s.control_states (translate_n2_with_time env c s w).lower_id).speedup < 1 ∧
        (translate_n2_with_time env c s w).low_state_iters = 1)) ∧
    (∀ (env : Env) (c : PoetConsts) (s : PoetState) (w : ℚ),
      s.constraint = .PERFORMANCE → 0 < s.scs.u → 0 ≤ w →
      (∀ e ∈ s.control_states, e.speedup < 1 →
        e.speedup ≤ 0 ∧ 1 ≤ (s.control_states.getD e.idle_partner_id default).speedup) →
      s.num_system_states ≤ s.control_states.length →
      (translate_n2_with_time env c s w).lower_id ≠ -1 →
      0 ≤ (translate_n2_with_time env c s w).idle_ns) := by
  constructor
  · intro env c s w hk hp hne
    rw [translate_eq_specSearch] at hne ⊢
    simp only [applyBest] at hne ⊢
    rw [hk] at hne ⊢
    rcases specSearch_result_from_pair Tradeoff.PERFORMANCE s.control_states
        s.num_system_states s.period s.scs.u s.pcs.u (targetOf s) w
        env.disable_idle c with hseed | ⟨i, j, hmem, hlo, hup, hit, hid⟩
    · rw [hseed] at hne
      exact absurd rfl hne
    · have hups := (mem_admissiblePairs hmem).1
      have hlos := (mem_admissiblePairs hmem).2
      simp only [upperAdmissible, lowerAdmissible, Bool.and_eq_true,
        decide_eq_true_eq, specXup] at hups hlos
      have htarget : targetOf s = s.scs.u := by rw [targetOf, hk]
      rw [htarget] at hups hlos
      have hgi : (getCS s.control_states ((i : ℕ) : ℤ)).speedup
          = (s.control_states.getD i default).speedup := by
        simp [getCS]
      have hgj : (getCS s.control_states ((j : ℕ) : ℤ)).speedup
          = (s.control_states.getD j default).speedup := by
        simp [getCS]
      have hb := ctdFields_bounds s.period s.control_states s.scs.u s.pcs.u w i j hp
        (by rw [hgi]; exact hups.2) (by rw [hgi]; exact hups.1)
        (by rw [hgj]; exact hlos.1)
      rw [hlo, hit, hid]
      exact ⟨hb.1, hb.2.1, fun hidne => ⟨by rw [hgj] at hb ⊢; exact (hb.2.2 hidne).1,
        (hb.2.2 hidne).2⟩⟩
  · intro env c s w hk ht hw htab hn hne
    rw [translate_eq_specSearch] at hne ⊢
    simp only [applyBest] at hne ⊢
    rw [hk] at hne ⊢
    rcases specSearch_result_from_pair Tradeoff.PERFORMANCE s.control_states
        s.num_system_states s.period s.scs.u s.pcs.u (targetOf s) w
        env.disable_idle c with hseed | ⟨i, j, hmem, hlo, hup, hit, hid⟩
    · rw [hseed] at hne
      exact absurd rfl hne
    · have hups := (mem_admissiblePairs hmem).1
      have hjn := (mem_admissiblePairs_lt hmem).2
      simp only [upperAdmissible, Bool.and_eq_true, decide_eq_true_eq,
        specXup] at hups
      have htarget : targetOf s = s.scs.u := by rw [targetOf, hk]
      rw [htarget] at hups
      have hgi : (getCS s.control_states ((i : ℕ) : ℤ)).speedup
          = (s.control_states.getD i default).speedup := by
        simp [getCS]
      have hjlen : j < s.control_states.length := lt_of_lt_of_le hjn hn
      have hgetj : getCS s.control_states ((j : ℕ) : ℤ) = s.control_states.getD j default := by
        simp [getCS]
      have hmemj : s.control_states.getD j default ∈ s.control_states := by
        rw [List.getD_eq_getElem s.control_states default hjlen]
        exact List.getElem_mem hjlen
      have hni := ctdFields_idle_nonneg s.period s.control_states s.scs.u s.pcs.u w i j
        ht hw (by rw [hgi]; exact hups.2) (by rw [hgi]; exact hups.1)
        (by rw [hgetj]; exact htab _ hmemj)
      rw [hid]
      exact hni
/-- Claim C5, witness: a healthy PERFORMANCE search on the two-state
table selects a pair and satisfies all the bounds, with nonnegative idle
time. -/
theorem planning_result_bounds_witness :
    (0 ≤ (translate_n2_with_time envOn defaultConsts engineTwo 1).low_state_iters ∧
      (translate_n2_with_time envOn defaultConsts engineTwo 1).low_state_iters
        ≤ (engineTwo.period : ℤ) ∧
      ((translate_n2_with_time envOn defaultConsts engineTwo 1).idle_ns ≠ 0 →
        (getCS engineTwo.control_states
            (translate_n2_with_time envOn defaultConsts engineTwo 1).lower_id).speedup
          < 1 ∧
        (translate_n2_with_time envOn defaultConsts engineTwo 1).low_state_iters = 1)) ∧
    0 ≤ (translate_n2_with_time envOn defaultConsts engineTwo 1).idle_ns :=
  ⟨planning_result_bounds.1 envOn defaultConsts engineTwo 1 rfl (by decide)
      (by with_unfolding_all decide),
   planning_result_bounds.2 envOn defaultConsts engineTwo 1 rfl (by decide) (by decide)
      (by decide) (by decide) (by with_unfolding_all decide)⟩

/-- Claim C5, counterexample: a period-boundary call in which no pair
qualifies stores `low_state_iters = -1`, violating
`0 ≤ low_state_iters`. -/
theorem planning_negative_iters_cex :
    (poet_apply_control envOn defaultConsts engineNoPair 0 1 1).1.low_state_iters = -1 ∧
    ¬ (0 ≤ (poet_apply_control envOn defaultConsts engineNoPair 0 1 1).1.low_state_iters) := by
  with_unfolding_all decide

end Bard
